import Mathlib

/-!
# Verification of `External-IP-ASCII-Worldmap`

A shallow embedding, in Lean 4, of the pure computational core of the
repository (files `mapIP.py`, `showExternalIPOnMap.py`, `mapIP/worldmap.py`),
together with theorems settling the specification claims.

Modelling conventions:
* Python strings are embedded as `List Char` (a Python `str` is a sequence of
  code points); grids (`list[str]`) become `List (List Char)`.
* Python `int` becomes `Int` (or `Nat` where the source value is provably
  non-negative), Python `float` arithmetic is embedded over `Rat`
  (exact rationals; the source's float rounding is irrelevant at the
  boundary values the claims exercise).
* Python `int(x)` (truncation towards zero) is `pyTrunc`.
* Fallible code returns `Option`/`Except`; the Python exception hierarchy
  distinction that matters here (`SystemExit` is *not* an `Exception`, so
  `except Exception` does not catch it) is kept in `PyErr`.
* `unicodedata.east_asian_width` is an external-library table; it is embedded
  by its main Fullwidth/Wide code-point ranges, which is all the source uses.
-/

/-- Python `int(q)`: truncation of a rational towards zero.  For `q ≥ 0` this
is the floor; for `q < 0` it is the ceiling (`int(-2.5) == -2`). -/
def pyTrunc (q : Rat) : Int :=
  if 0 ≤ q then ⌊q⌋ else -⌊-q⌋

/-- The main Fullwidth/Wide code-point ranges of the Unicode East Asian Width
table (model of the external `unicodedata` module used by `get_char_width`). -/
def wideRanges : List (Nat × Nat) :=
  [(0x1100, 0x115F), (0x2E80, 0x303E), (0x3041, 0x33FF),
   (0x3400, 0x4DBF), (0x4E00, 0x9FFF), (0xA000, 0xA4CF),
   (0xAC00, 0xD7A3), (0xF900, 0xFAFF), (0xFE30, 0xFE4F),
   (0xFF00, 0xFF60), (0xFFE0, 0xFFE6)]

/-- `unicodedata.east_asian_width(char) in ('F', 'W')`, embedded through the
main Fullwidth/Wide ranges of the East Asian Width table. -/
def east_asian_width_FW (c : Char) : Bool :=
  wideRanges.any (fun r => decide (r.1 ≤ c.toNat ∧ c.toNat ≤ r.2))

/-- `mapIP.py` `get_char_width`: 2 for Fullwidth/Wide characters, 1
otherwise. -/
def get_char_width (c : Char) : Nat :=
  if east_asian_width_FW c then 2 else 1

/-- `sum(get_char_width(c) for c in line)`: display width of a row. -/
def displayWidth (line : List Char) : Nat :=
  (line.map get_char_width).sum

/-- The truncation loop of `ensure_line_length` (`mapIP.py` lines 68-78):
append characters while the accumulated width stays within the target,
stop (`break`) at the first character that would overflow. -/
def truncateToWidth (line : List Char) (width target : Nat) : List Char :=
  match line with
  | [] => []
  | c :: cs =>
    if width + get_char_width c ≤ target then
      c :: truncateToWidth cs (width + get_char_width c) target
    else
      []

/-- `mapIP.py` `ensure_line_length`: truncate when the current display width
exceeds the target, otherwise pad with single-width spaces. -/
def ensure_line_length (line : List Char) (target_length : Nat) : List Char :=
  if displayWidth line > target_length then
    truncateToWidth line 0 target_length
  else
    line ++ List.replicate (target_length - displayWidth line) ' '

theorem get_char_width_pos (c : Char) : 1 ≤ get_char_width c := by
  unfold get_char_width
  split <;> omega

/-- The truncation loop never exceeds the remaining budget:
its output width, added to the accumulator, stays `≤ target`. -/
theorem truncateToWidth_le (line : List Char) (width target : Nat)
    (h : width ≤ target) :
    width + displayWidth (truncateToWidth line width target) ≤ target := by
  induction line generalizing width with
  | nil => simpa [truncateToWidth, displayWidth]
  | cons c cs ih =>
    unfold truncateToWidth
    split
    · have := ih (width + get_char_width c) (by omega)
      simp only [displayWidth, List.map_cons, List.sum_cons] at *
      omega
    · simpa [displayWidth]

/-- Padding is exact: if the width is at most the target, the padded row has
display width exactly the target. -/
theorem displayWidth_pad (line : List Char) (target : Nat)
    (h : displayWidth line ≤ target) :
    displayWidth (line ++ List.replicate (target - displayWidth line) ' ') =
      target := by
  have hspace : get_char_width ' ' = 1 := by decide
  simp only [displayWidth] at h ⊢
  simp only [List.map_append, List.sum_append, List.map_replicate,
    hspace, List.sum_replicate, smul_eq_mul, mul_one]
  omega

/-- A row already of the target display width is returned unchanged. -/
theorem ensure_line_length_of_width_eq (line : List Char) (W : Nat)
    (h : displayWidth line = W) :
    ensure_line_length line W = line := by
  unfold ensure_line_length
  rw [if_neg (by omega), h]
  simp

/-- C1 (code bug): the Line Normalizer does *not* always return a row of
display width exactly `W`.  When truncation stops in the middle of a
2-column-wide character it forgets to pad: on the single wide character
`'あ'` (display width 2) with target width 1, `ensure_line_length` returns
the empty row, of display width 0, not 1. -/
theorem c1_normalizer_width_not_exact_at_wide_char :
    ensure_line_length ['あ'] 1 = [] ∧
      displayWidth (ensure_line_length ['あ'] 1) = 0 ∧
      displayWidth (ensure_line_length ['あ'] 1) ≠ 1 := by
  decide

/-- C2 (counterexample): the Line Normalizer is not idempotent as claimed.
On the row `['あ']` with target width 1 the first pass truncates to the
empty row (width 0 < 1) and the second pass pads it with a space. -/
theorem c2_normalizer_not_idempotent_cex :
    ensure_line_length (ensure_line_length ['あ'] 1) 1 ≠
      ensure_line_length ['あ'] 1 := by
  decide

/-- C2 (amended): the Line Normalizer is idempotent whenever the first
normalization actually reaches display width exactly `W` — which is always,
except when truncation stops before a 2-column-wide character and leaves the
row at width `W - 1`.  In that situation the hypothesis fails (see the
counterexample); in all others re-normalizing returns the row unchanged. -/
theorem c2_normalizer_idempotent_when_width_reached (line : List Char)
    (W : Nat) (h : displayWidth (ensure_line_length line W) = W) :
    ensure_line_length (ensure_line_length line W) W =
      ensure_line_length line W :=
  ensure_line_length_of_width_eq _ _ h

/-- C2 witness: a concrete instance of the amended idempotence, on the
two-character row `"ab"` normalized to width 1. -/
theorem c2_normalizer_idempotent_witness :
    ensure_line_length (ensure_line_length ['a', 'b'] 1) 1 =
      ensure_line_length ['a', 'b'] 1 :=
  c2_normalizer_idempotent_when_width_reached ['a', 'b'] 1 (by decide)

/-- `mapIP.py` `replace_str_index`: `text[:index] + replacement + text[index+1:]`. -/
def replace_str_index (text : List Char) (index : Nat) (replacement : List Char) :
    List Char :=
  text.take index ++ replacement ++ text.drop (index + 1)

/-- The marker-overlay step of `draw` (`mapIP.py` lines 329-339): take a copy
of the base grid and replace the character of the marked row at the marker
column with `'X'`. -/
def overlayMarker (grid : List (List Char)) (r c : Nat) : List (List Char) :=
  grid.set r (replace_str_index (grid.getD r []) c ['X'])

/-- For an in-range index, single-character replacement is `List.set`. -/
theorem replace_str_index_eq_set (text : List Char) (c : Nat) (x : Char)
    (h : c < text.length) :
    replace_str_index text c [x] = text.set c x := by
  rw [replace_str_index, List.set_eq_take_cons_drop x h]
  simp

/-- C10: overlaying the location marker is applied to a copy of the base
grid: the result has the same number of rows, every row other than the
marked one is the base grid's row, and the marked row is a new row with the
same character count in which exactly the character at the marker column has
been replaced by `'X'`.  The base grid itself is a value the overlay never
mutates (the embedding is pure, matching `worldMap.copy()` plus string
slicing in the source, which rebinds the copy's row and leaves `worldMap`'s
rows untouched). -/
theorem c10_overlay_marker_pure (grid : List (List Char)) (row : List Char)
    (r c : Nat) (hr : grid[r]? = some row) (hc : c < row.length) :
    (overlayMarker grid r c).length = grid.length ∧
      (∀ i, i ≠ r → (overlayMarker grid r c)[i]? = grid[i]?) ∧
      (overlayMarker grid r c)[r]? = some (replace_str_index row c ['X']) ∧
      (replace_str_index row c ['X']).length = row.length ∧
      (replace_str_index row c ['X'])[c]? = some 'X' ∧
      (∀ j, j ≠ c → (replace_str_index row c ['X'])[j]? = row[j]?) := by
  obtain ⟨hrlt, hget⟩ := List.getElem?_eq_some.mp hr
  have hgetD : grid.getD r [] = row := by
    rw [List.getD_eq_getElem?_getD, hr, Option.getD_some]
  have hov : overlayMarker grid r c = grid.set r (row.set c 'X') := by
    rw [overlayMarker, hgetD, replace_str_index_eq_set _ _ _ hc]
  have hrepl : replace_str_index row c ['X'] = row.set c 'X' :=
    replace_str_index_eq_set _ _ _ hc
  refine ⟨?_, ?_, ?_, ?_, ?_, ?_⟩
  · rw [hov]; exact List.length_set ..
  · intro i hi
    rw [hov, List.getElem?_set_ne (by omega)]
  · rw [hov, hrepl, List.getElem?_set_self]
    exact hrlt
  · rw [hrepl]; exact List.length_set ..
  · rw [hrepl, List.getElem?_set_self]
    exact hc
  · intro j hj
    rw [hrepl, List.getElem?_set_ne (by omega)]

/-- C10 witness: a concrete overlay on a 2×3 grid at cell (1, 1). -/
theorem c10_overlay_marker_pure_witness :
    (overlayMarker [['a', 'b', 'c'], ['d', 'e', 'f']] 1 1).length = 2 ∧
      (replace_str_index ['d', 'e', 'f'] 1 ['X'])[1]? = some 'X' :=
  ⟨(c10_overlay_marker_pure [['a', 'b', 'c'], ['d', 'e', 'f']]
      ['d', 'e', 'f'] 1 1 (by decide) (by decide)).1,
   (c10_overlay_marker_pure [['a', 'b', 'c'], ['d', 'e', 'f']]
      ['d', 'e', 'f'] 1 1 (by decide) (by decide)).2.2.2.2.1⟩

theorem pyTrunc_zero : pyTrunc 0 = 0 := by
  simp [pyTrunc]

theorem pyTrunc_eq_floor {q : Rat} (h : 0 ≤ q) : pyTrunc q = ⌊q⌋ := by
  simp [pyTrunc, h]

theorem pyTrunc_intCast (n : Int) : pyTrunc (n : Rat) = n := by
  unfold pyTrunc
  split
  · simp
  · rw [← Int.cast_neg, Int.floor_intCast]
    omega

/-- `mapIP.py` `geo_to_ascii`: map latitude/longitude onto a `(row, column)`
cell of the glyph grid.  The latitude axis carries the hard-coded empirical
correction factor `1/0.85`; both coordinates are clamped into the grid via
`max(0, min(v, dim - 1))`.  The body is pure arithmetic, so the `except`
branch of the source (which would return `(0, 0)`) is unreachable. -/
def geo_to_ascii (geo : Rat × Rat) (map_height map_width : Int) : Int × Int :=
  let lat_normalized : Rat := (90 - geo.1) / 180
  let lat : Int := pyTrunc (lat_normalized * (map_height : Rat) * (1 / (0.85 : Rat)))
  let lon_normalized : Rat := (geo.2 + 180) / 360
  let lon : Int := pyTrunc (lon_normalized * (map_width : Rat))
  (max 0 (min lat (map_height - 1)), max 0 (min lon (map_width - 1)))

/-- C4: for every grid of height `H ≥ 1` and width `W ≥ 1` the Geo Projector
sends `(lat 90, lon -180)` to cell `(0, 0)` and `(lat -90, lon 180)` to cell
`(H-1, W-1)`, and for *every* latitude/longitude — also out-of-range inputs
such as `lat = 1000` — it returns (without raising) a row in `[0, H-1]` and
a column in `[0, W-1]`, clamping rather than rejecting. -/
theorem c4_geo_projector_corners_and_clamp (H W : Int)
    (hH : 1 ≤ H) (hW : 1 ≤ W) :
    geo_to_ascii (90, -180) H W = (0, 0) ∧
      geo_to_ascii (-90, 180) H W = (H - 1, W - 1) ∧
      ∀ lat lon : Rat,
        0 ≤ (geo_to_ascii (lat, lon) H W).1 ∧
          (geo_to_ascii (lat, lon) H W).1 ≤ H - 1 ∧
          0 ≤ (geo_to_ascii (lat, lon) H W).2 ∧
          (geo_to_ascii (lat, lon) H W).2 ≤ W - 1 := by
  refine ⟨?_, ?_, ?_⟩
  · unfold geo_to_ascii
    norm_num [pyTrunc_zero]
  · unfold geo_to_ascii
    have e1 : ((90 : Rat) - (-90)) / 180 * (H : Rat) * (1 / (0.85 : Rat)) =
        20 * (H : Rat) / 17 := by norm_num; ring
    have e2 : ((180 : Rat) + 180) / 360 * (W : Rat) = (W : Rat) := by
      norm_num
    simp only [e1, e2, pyTrunc_intCast]
    have hcast : (1 : Rat) ≤ (H : Rat) := by exact_mod_cast hH
    have hfl : H - 1 ≤ ⌊20 * (H : Rat) / 17⌋ := by
      rw [Int.le_floor]
      push_cast
      linarith
    have hnn : (0 : Rat) ≤ 20 * (H : Rat) / 17 := by
      linarith
    rw [pyTrunc_eq_floor hnn]
    simp only [Prod.mk.injEq]
    refine ⟨?_, ?_⟩ <;> omega
  · intro lat lon
    unfold geo_to_ascii
    refine ⟨le_max_left _ _, ?_, le_max_left _ _, ?_⟩
    · exact max_le (by omega) (min_le_right _ _)
    · exact max_le (by omega) (min_le_right _ _)

/-- C4 witness: a concrete 10×20 grid, with the out-of-range probe
`lat = 1000`. -/
theorem c4_geo_projector_witness :
    geo_to_ascii (90, -180) 10 20 = (0, 0) ∧
      geo_to_ascii (-90, 180) 10 20 = (9, 19) ∧
      0 ≤ (geo_to_ascii (1000, 0) 10 20).1 ∧
      (geo_to_ascii (1000, 0) 10 20).1 ≤ 9 := by
  obtain ⟨h1, h2, h3⟩ :=
    c4_geo_projector_corners_and_clamp 10 20 (by decide) (by decide)
  exact ⟨h1, h2, (h3 1000 0).1, (h3 1000 0).2.1⟩

/-- `worldmap.py` `gscale1`, the fine ramp (68 characters; the source comment
says "70 levels" but the literal drops two characters of the usual 70-level
ramp).  Python literal:
`"$B%8&WM*oahkbdpqwmZO0QLCJUYXzcvunxrjft/\\|()1{}[]?-_+~<>i!lI;:,\"^`'. "`,
given here by code point so that every character is explicit. -/
def gscale1 : List Char :=
  [0x24, 0x42, 0x25, 0x38, 0x26, 0x57, 0x4d, 0x2a, 0x6f, 0x61, 0x68, 0x6b,
   0x62, 0x64, 0x70, 0x71, 0x77, 0x6d, 0x5a, 0x4f, 0x30, 0x51, 0x4c, 0x43,
   0x4a, 0x55, 0x59, 0x58, 0x7a, 0x63, 0x76, 0x75, 0x6e, 0x78, 0x72, 0x6a,
   0x66, 0x74, 0x2f, 0x5c, 0x7c, 0x28, 0x29, 0x31, 0x7b, 0x7d, 0x5b, 0x5d,
   0x3f, 0x2d, 0x5f, 0x2b, 0x7e, 0x3c, 0x3e, 0x69, 0x21, 0x6c, 0x49, 0x3b,
   0x3a, 0x2c, 0x22, 0x5e, 0x60, 0x27, 0x2e, 0x20].map Char.ofNat

/-- `worldmap.py` `gscale2`, the coarse ramp.  The module assigns it twice;
the second assignment `'@%*+=_-: '` (9 characters) is the live value. -/
def gscale2 : List Char :=
  ['@', '%', '*', '+', '=', '_', '-', ':', ' ']

/-- The ramp-index computation `int((avg*(len(g)-1))/255)` of `worldmap.py`
(lines 85 and 87): the Python float quotient of the non-negative integer
`avg*(N-1)` by 255 truncates to exactly the integer floor, i.e. `Nat`
division. -/
def gsIndex (n avg : Nat) : Nat :=
  (avg * (n - 1)) / 255

/-- Ramp lookup of `worldmap.py` lines 84-87: select the fine or coarse ramp
and index it with `gsIndex`.  (For luminances in `[0, 255]` the index is in
range; `getD` supplies a default Lean needs for totality.) -/
def gsCharFor (moreLevels : Bool) (avg : Nat) : Char :=
  if moreLevels then gscale1.getD (gsIndex gscale1.length avg) ' '
  else gscale2.getD (gsIndex gscale2.length avg) ' '

/-- C6: for both ramps, luminance 0 selects index 0 (the first ramp
character: `'@'` coarse, `'$'` fine) and luminance 255 selects index `N-1`
(the last ramp character, a space in both ramps), and the assigned index
`⌊luminance*(N-1)/255⌋` is monotone non-decreasing in the luminance. -/
theorem c6_glyph_ramp_endpoints_and_monotone (a b : Nat) (hab : a ≤ b) :
    gsIndex gscale2.length 0 = 0 ∧
      gsIndex gscale2.length 255 = gscale2.length - 1 ∧
      gsIndex gscale1.length 0 = 0 ∧
      gsIndex gscale1.length 255 = gscale1.length - 1 ∧
      gsCharFor false 0 = '@' ∧ gsCharFor false 255 = ' ' ∧
      gsCharFor true 0 = '$' ∧ gsCharFor true 255 = ' ' ∧
      gsIndex gscale2.length a ≤ gsIndex gscale2.length b ∧
      gsIndex gscale1.length a ≤ gsIndex gscale1.length b := by
  refine ⟨by decide, by decide, by decide, by decide, by decide, by decide,
    by decide, by decide, ?_, ?_⟩ <;>
    exact Nat.div_le_div_right (Nat.mul_le_mul_right _ hab)

/-- C6 witness: the endpoint values, plus monotonicity at luminances
`100 ≤ 200`. -/
theorem c6_glyph_ramp_witness :
    gsCharFor false 0 = '@' ∧ gsCharFor true 255 = ' ' ∧
      gsIndex gscale2.length 100 ≤ gsIndex gscale2.length 200 :=
  ⟨(c6_glyph_ramp_endpoints_and_monotone 100 200 (by decide)).2.2.2.2.1,
   (c6_glyph_ramp_endpoints_and_monotone 100 200 (by decide)).2.2.2.2.2.2.2.1,
   (c6_glyph_ramp_endpoints_and_monotone 100 200 (by decide)).2.2.2.2.2.2.2.2.1⟩

/-- A grayscale bitmap (the `PIL` image after `.convert('L')`): dimensions
plus a luminance sample (0-255) per coordinate `(x, y)`. -/
structure Bitmap where
  width : Nat
  height : Nat
  pixel : Nat → Nat → Nat

/-- The slice of Python's exception hierarchy the repository's error flow
depends on: `SystemExit` (raised by `sys.exit`) is a `BaseException` but not
an `Exception`, so an `except Exception` handler does not catch it. -/
inductive PyErr where
  | systemExit (code : Nat)
  | exc (msg : String)
deriving DecidableEq

/-- Whether an `except Exception` handler catches the error. -/
def catchesExceptException : PyErr → Bool
  | .systemExit _ => false
  | .exc _ => true

/-- `worldmap.py` `getAverageL` on the crop `[x1, x2) × [y1, y2)`: the sum of
all contained luminance samples.  (Tiles never overlap and adjacent tiles
share their boundary exactly; the half-open ranges here are PIL's `crop`
semantics.) -/
def tileSum (img : Bitmap) (x1 x2 y1 y2 : Nat) : Nat :=
  ∑ dy ∈ Finset.range (y2 - y1), ∑ dx ∈ Finset.range (x2 - x1),
    img.pixel (x1 + dx) (y1 + dy)

/-- `int(getAverageL(img))` of `worldmap.py` line 81: the truncated mean
luminance of the tile.  The exact mean is a non-negative rational, so Python's
`int()` is its floor, i.e. `Nat` division of the sum by the sample count.
(Python's `np.average` on an *empty* tile yields NaN and `int(NaN)` raises;
this embedding returns 0 there, and every theorem below only ever evaluates
non-empty tiles.) -/
def tileAvg (img : Bitmap) (x1 x2 y1 y2 : Nat) : Nat :=
  tileSum img x1 x2 y1 y2 / ((x2 - x1) * (y2 - y1))

/-- One cell of `covertImageToAscii` (`worldmap.py` lines 56-90): tile
boundaries `int(i*w)`/`int((i+1)*w)` (resp. `j`, `h`), with the last tile of
each row and column extended to the image edge, then the ramp character of
the tile's truncated mean luminance. -/
def asciiCell (img : Bitmap) (cols : Nat) (w h : Rat) (rowsN : Nat)
    (moreLevels : Bool) (j i : Nat) : Char :=
  let y1 : Nat := (pyTrunc ((j : Rat) * h)).toNat
  let y2 : Nat :=
    if j = rowsN - 1 then img.height else (pyTrunc (((j : Rat) + 1) * h)).toNat
  let x1 : Nat := (pyTrunc ((i : Rat) * w)).toNat
  let x2 : Nat :=
    if i = cols - 1 then img.width else (pyTrunc (((i : Rat) + 1) * w)).toNat
  gsCharFor moreLevels (tileAvg img x1 x2 y1 y2)

/-- `worldmap.py` `covertImageToAscii`: tile width `w = W/cols`, tile height
`h = w/scale`, row count `rows = int(H/h)`; `sys.exit(0)` (a `SystemExit`,
embedded as `PyErr.systemExit 0`) when `cols > W or rows > H`; otherwise the
`rows × cols` grid of ramp characters.  The three `ZeroDivisionError` guards
mirror the Python divisions `W/cols`, `w/scale` and `H/h`. -/
def covertImageToAscii (img : Bitmap) (cols : Nat) (scale : Rat)
    (moreLevels : Bool) : Except PyErr (List (List Char)) :=
  if cols = 0 then .error (.exc "ZeroDivisionError")
  else
    let w : Rat := (img.width : Rat) / (cols : Rat)
    if scale = 0 then .error (.exc "ZeroDivisionError")
    else
      let h : Rat := w / scale
      if h = 0 then .error (.exc "ZeroDivisionError")
      else
        let rows : Int := pyTrunc ((img.height : Rat) / h)
        if cols > img.width ∨ rows > img.height then .error (.systemExit 0)
        else
          .ok ((List.range rows.toNat).map (fun j =>
            (List.range cols).map (fun i =>
              asciiCell img cols w h rows.toNat moreLevels j i)))

/-- The map-rebuild step of `draw` (`mapIP.py` lines 300-323) on a resize
tick: on success every row is normalized to the effective width; a raised
`Exception` is caught (`except Exception`: log, 5-second sleep, `continue`);
a raised `SystemExit` is caught by *no* handler in `draw` or `__main__` and
terminates the process. -/
inductive RebuildOutcome where
  | rebuilt (grid : List (List Char))
  | loggedRetry
  | processExit (code : Nat)
deriving DecidableEq

/-- Dispatch of the rebuild result through `draw`'s `try`/`except` structure. -/
def rebuildWorldMap (res : Except PyErr (List (List Char)))
    (effective_width : Nat) : RebuildOutcome :=
  match res with
  | .ok m => .rebuilt (m.map (fun row => ensure_line_length row effective_width))
  | .error (.exc _) => .loggedRetry
  | .error (.systemExit c) => .processExit c

/-- C3 (code bug): when `targetColumns` exceeds the bitmap width the
Rasterizer does abort without returning a partial grid — but the failure is
`sys.exit(0)`, i.e. `SystemExit`, which none of the `except Exception`
handlers in `draw` (or `__main__`) catches, so the render loop does *not*
log-and-continue: the process terminates with exit code 0. -/
theorem c3_insufficient_resolution_exits_process (img : Bitmap) (cols : Nat)
    (scale : Rat) (ew : Nat) (h1 : cols > img.width) (h2 : 0 < img.width)
    (h3 : scale ≠ 0) :
    covertImageToAscii img cols scale false = .error (.systemExit 0) ∧
      catchesExceptException (.systemExit 0) = false ∧
      rebuildWorldMap (covertImageToAscii img cols scale false) ew =
        .processExit 0 ∧
      (∀ msg, rebuildWorldMap (.error (.exc msg)) ew = .loggedRetry) := by
  have hcols : cols ≠ 0 := by omega
  have hwne : ((img.width : Rat) / (cols : Rat)) ≠ 0 := by
    apply div_ne_zero
    · exact_mod_cast h2.ne'
    · exact_mod_cast hcols
  have hres : covertImageToAscii img cols scale false =
      .error (.systemExit 0) := by
    unfold covertImageToAscii
    rw [if_neg hcols, if_neg h3, if_neg (div_ne_zero hwne h3),
      if_pos (Or.inl h1)]
  exact ⟨hres, rfl, by rw [hres]; rfl, fun msg => rfl⟩

/-- C3 witness: a 10×10 bitmap with `targetColumns = 20`. -/
theorem c3_insufficient_resolution_witness :
    covertImageToAscii ⟨10, 10, fun _ _ => 0⟩ 20 1 false =
        .error (.systemExit 0) ∧
      rebuildWorldMap (covertImageToAscii ⟨10, 10, fun _ _ => 0⟩ 20 1 false)
          16 = .processExit 0 :=
  ⟨(c3_insufficient_resolution_exits_process ⟨10, 10, fun _ _ => 0⟩ 20 1 16
      (by decide) (by decide) (by norm_num)).1,
   (c3_insufficient_resolution_exits_process ⟨10, 10, fun _ _ => 0⟩ 20 1 16
      (by decide) (by decide) (by norm_num)).2.2.1⟩

/-- With tile width at least 1, consecutive tile boundaries are strictly
increasing: `int(i*w) < int((i+1)*w)`. -/
theorem tileBound_strict (w : Rat) (hw : 1 ≤ w) (i : Nat) :
    (pyTrunc ((i : Rat) * w)).toNat < (pyTrunc (((i : Rat) + 1) * w)).toNat := by
  have h0 : (0 : Rat) ≤ (i : Rat) * w := by positivity
  have h1 : (0 : Rat) ≤ ((i : Rat) + 1) * w := by positivity
  rw [pyTrunc_eq_floor h0, pyTrunc_eq_floor h1]
  have hfl0 : (0 : Int) ≤ ⌊(i : Rat) * w⌋ := Int.floor_nonneg.mpr h0
  have hstep : ⌊(i : Rat) * w⌋ + 1 ≤ ⌊((i : Rat) + 1) * w⌋ := by
    have : (i : Rat) * w + 1 ≤ ((i : Rat) + 1) * w := by nlinarith
    calc ⌊(i : Rat) * w⌋ + 1 = ⌊(i : Rat) * w + 1⌋ := by
          rw [← Int.floor_add_one]
      _ ≤ ⌊((i : Rat) + 1) * w⌋ := Int.floor_mono this
  omega

/-- With tile width at least 1 and `k` tiles fitting in `M` samples, the
lower boundary of the last tile lies strictly inside the image, so the
edge-extended last tile is non-empty. -/
theorem tileBound_last (w : Rat) (k M : Nat) (hw : 1 ≤ w) (hk : 1 ≤ k)
    (hkw : (k : Rat) * w ≤ (M : Rat)) :
    (pyTrunc (((k - 1 : Nat) : Rat) * w)).toNat < M := by
  have hcast : ((k - 1 : Nat) : Rat) = (k : Rat) - 1 := by
    push_cast [hk]
    ring
  have h0 : (0 : Rat) ≤ ((k - 1 : Nat) : Rat) * w := by positivity
  rw [pyTrunc_eq_floor h0]
  have hub : ((k - 1 : Nat) : Rat) * w ≤ (M : Rat) - 1 := by
    rw [hcast]
    have hk1 : (1 : Rat) ≤ (k : Rat) := by exact_mod_cast hk
    nlinarith
  have hM1 : 1 ≤ M := by
    have : (1 : Rat) ≤ (M : Rat) := by
      have hk1 : (1 : Rat) ≤ (k : Rat) := by exact_mod_cast hk
      nlinarith
    exact_mod_cast this
  have hfl : ⌊((k - 1 : Nat) : Rat) * w⌋ ≤ (M : Int) - 1 := by
    have := Int.floor_mono hub
    rwa [show ((M : Rat) - 1) = ((M - 1 : Int) : Rat) by push_cast [hM1]; ring,
      Int.floor_intCast] at this
  omega

/-- The truncated mean of a non-empty tile of a uniform bitmap is the uniform
luminance. -/
theorem tileAvg_uniform (img : Bitmap) (L x1 x2 y1 y2 : Nat)
    (hpix : ∀ x y, img.pixel x y = L) (hx : x1 < x2) (hy : y1 < y2) :
    tileAvg img x1 x2 y1 y2 = L := by
  unfold tileAvg tileSum
  simp only [hpix, Finset.sum_const, Finset.card_range, smul_eq_mul]
  rw [show (y2 - y1) * ((x2 - x1) * L) = (x2 - x1) * (y2 - y1) * L by ring]
  exact Nat.mul_div_cancel_left L (Nat.mul_pos (by omega) (by omega))

/-- Every cell of a uniform bitmap rasterizes to the ramp character of the
uniform luminance, independently of the tile boundaries. -/
theorem asciiCell_uniform (img : Bitmap) (cols : Nat) (w h : Rat)
    (rowsN : Nat) (ml : Bool) (L j i : Nat)
    (hpix : ∀ x y, img.pixel x y = L) (hw : 1 ≤ w) (hh : 1 ≤ h)
    (hcw : (cols : Rat) * w ≤ (img.width : Rat))
    (hrh : (rowsN : Rat) * h ≤ (img.height : Rat))
    (hj : j < rowsN) (hi : i < cols) :
    asciiCell img cols w h rowsN ml j i = gsCharFor ml L := by
  unfold asciiCell
  dsimp only
  have hx : (pyTrunc ((i : Rat) * w)).toNat <
      (if i = cols - 1 then img.width
       else (pyTrunc (((i : Rat) + 1) * w)).toNat) := by
    split
    · next hieq =>
      subst hieq
      exact tileBound_last w cols img.width hw (by omega) hcw
    · exact tileBound_strict w hw i
  have hy : (pyTrunc ((j : Rat) * h)).toNat <
      (if j = rowsN - 1 then img.height
       else (pyTrunc (((j : Rat) + 1) * h)).toNat) := by
    split
    · next hjeq =>
      subst hjeq
      exact tileBound_last h rowsN img.height hh (by omega) hrh
    · exact tileBound_strict h hh j
  rw [tileAvg_uniform img L _ _ _ _ hpix hx hy]

theorem map_range_eq_replicate {α : Type} (n : Nat) (f : Nat → α) (g : α)
    (h : ∀ k, k < n → f k = g) :
    (List.range n).map f = List.replicate n g := by
  rw [List.eq_replicate_iff]
  refine ⟨by simp, ?_⟩
  intro b hb
  obtain ⟨k, hk, hfk⟩ := List.mem_map.mp hb
  rw [← hfk]
  exact h k (List.mem_range.mp hk)

theorem pyTrunc_div_le (H : Nat) (h : Rat) (hh : 1 ≤ h) :
    pyTrunc ((H : Rat) / h) ≤ (H : Int) := by
  have hpos : (0 : Rat) < h := lt_of_lt_of_le one_pos hh
  have hnn : (0 : Rat) ≤ (H : Rat) / h := by positivity
  rw [pyTrunc_eq_floor hnn]
  calc ⌊(H : Rat) / h⌋ ≤ ⌊(H : Rat)⌋ :=
        Int.floor_mono (div_le_self (by positivity) hh)
    _ = (H : Int) := Int.floor_natCast H

theorem toNat_pyTrunc_mul_le (H : Nat) (h : Rat) (hh : 1 ≤ h) :
    ((pyTrunc ((H : Rat) / h)).toNat : Rat) * h ≤ (H : Rat) := by
  have hpos : (0 : Rat) < h := lt_of_lt_of_le one_pos hh
  have hnn : (0 : Rat) ≤ (H : Rat) / h := by positivity
  rw [pyTrunc_eq_floor hnn]
  have hfl : 0 ≤ ⌊(H : Rat) / h⌋ := Int.floor_nonneg.mpr hnn
  have hcast : ((⌊(H : Rat) / h⌋.toNat : Nat) : Rat) ≤ (H : Rat) / h := by
    have he : ((⌊(H : Rat) / h⌋.toNat : Nat) : Rat) = ((⌊(H : Rat) / h⌋ : Int) : Rat) := by
      exact_mod_cast congrArg (fun z : Int => (z : Rat)) (Int.toNat_of_nonneg hfl)
    rw [he]
    exact Int.floor_le _
  exact (le_div_iff₀ hpos).mp hcast

theorem cols_mul_w_le (Wn cols : Nat) (hcols : cols ≠ 0) :
    (cols : Rat) * ((Wn : Rat) / (cols : Rat)) ≤ (Wn : Rat) := by
  rw [mul_comm, div_mul_cancel₀ _ (show ((cols : Nat) : Rat) ≠ 0 from
    Nat.cast_ne_zero.mpr hcols)]

/-- C5: rasterizing a uniform bitmap of luminance `L` succeeds whenever one
tile fits per cell (`1 ≤ w` and `1 ≤ h`), and yields a grid that is exactly
`int(H/h)` rows of exactly `cols` copies of the ramp glyph assigned to `L` —
independent of where the tile boundaries fall, because the last tile of each
row and column is extended to the image edge (no samples dropped, no
overlap), and the mean of a constant is that constant on every tile. -/
theorem c5_uniform_bitmap_constant_grid (img : Bitmap) (cols : Nat)
    (scale : Rat) (ml : Bool) (L : Nat)
    (hpix : ∀ x y, img.pixel x y = L) (hcols : 1 ≤ cols)
    (hw : 1 ≤ (img.width : Rat) / (cols : Rat))
    (hh : 1 ≤ (img.width : Rat) / (cols : Rat) / scale) :
    covertImageToAscii img cols scale ml =
      .ok (List.replicate
        (pyTrunc ((img.height : Rat) /
          ((img.width : Rat) / (cols : Rat) / scale))).toNat
        (List.replicate cols (gsCharFor ml L))) := by
  have hcolsne : cols ≠ 0 := by omega
  have hscale : scale ≠ 0 := by
    intro h0
    rw [h0, div_zero] at hh
    norm_num at hh
  have hhne : (img.width : Rat) / (cols : Rat) / scale ≠ 0 := by
    intro h0
    rw [h0] at hh
    norm_num at hh
  have hcolsW : cols ≤ img.width := by
    have hcpos : (0 : Rat) < (cols : Rat) := by
      exact_mod_cast Nat.pos_of_ne_zero hcolsne
    have := (one_le_div hcpos).mp hw
    exact_mod_cast this
  have hrowsle : ¬(cols > img.width ∨
      pyTrunc ((img.height : Rat) / ((img.width : Rat) / (cols : Rat) / scale)) >
        (img.height : Int)) := by
    push_neg
    exact ⟨hcolsW, pyTrunc_div_le img.height _ hh⟩
  unfold covertImageToAscii
  rw [if_neg hcolsne]
  dsimp only
  rw [if_neg hscale, if_neg hhne, if_neg hrowsle]
  congr 1
  apply map_range_eq_replicate
  intro j hj
  apply map_range_eq_replicate
  intro i hi
  exact asciiCell_uniform img cols _ _ _ ml L j i hpix hw hh
    (cols_mul_w_le img.width cols hcolsne)
    (toNat_pyTrunc_mul_le img.height _ hh) hj hi

/-- C5 witness: the 100×50 uniform bitmap with `targetColumns = 20` and
`aspectScale = 1.0` rasterizes to 10 rows of exactly 20 columns, every cell
the ramp glyph of the uniform luminance. -/
theorem c5_uniform_bitmap_witness :
    covertImageToAscii ⟨100, 50, fun _ _ => 100⟩ 20 1 false =
      .ok (List.replicate 10 (List.replicate 20 (gsCharFor false 100))) := by
  have h := c5_uniform_bitmap_constant_grid ⟨100, 50, fun _ _ => 100⟩ 20 1
    false 100 (fun _ _ => rfl) (by norm_num) (by norm_num) (by norm_num)
  rw [h]
  norm_num [pyTrunc]
  rfl

/-- The Location record held by the Render Loop:
`(ip, geo, city, region, country)`. -/
structure Location where
  ip : String
  geo : Rat × Rat
  city : String
  region : String
  country : String
deriving DecidableEq

/-- The fields of the `ipinfo.io` JSON response that
`get_external_ip_location` reads; a `none` field is absent from the JSON
object. -/
structure IpinfoJson where
  loc : Option String
  city : Option String
  region : Option String
  country : Option String

/-- Numeric value of a digit string (big-endian fold, as positional
notation). -/
def digitsVal (cs : List Char) : Nat :=
  cs.foldl (fun acc c => acc * 10 + (c.toNat - 48)) 0

/-- Unsigned plain decimal (`"40"`, `"40.5"`, `"40."`, `".5"`); anything
else (letters, multiple dots, empty) is rejected. -/
def parseUnsignedDecimal (cs : List Char) : Option Rat :=
  match cs.splitOn '.' with
  | [ip] =>
    if ip ≠ [] ∧ ip.all Char.isDigit then some ((digitsVal ip : Nat) : Rat)
    else none
  | [ip, fp] =>
    if (ip ++ fp) ≠ [] ∧ (ip ++ fp).all Char.isDigit then
      some (((digitsVal ip : Nat) : Rat) +
        ((digitsVal fp : Nat) : Rat) / ((10 : Rat) ^ fp.length))
    else none
  | _ => none

/-- Model of Python `float(s)` on the plain decimal strings the geolocation
service's `loc` field carries (`"<lat>,<lon>"` with optional sign);
a malformed string yields `none`, matching the `ValueError` that the
source's enclosing `except Exception` turns into an overall failure. -/
def parseFloatPy (s : String) : Option Rat :=
  match s.data with
  | '-' :: t => (parseUnsignedDecimal t).map (fun q => -q)
  | '+' :: t => parseUnsignedDecimal t
  | t => parseUnsignedDecimal t

/-- `mapIP.py` `get_external_ip_location`, over the two service responses:
`ipResp` is the body of the IP lookup (`none` = network error raised),
`geoResp` the decoded geolocation JSON (`none` = network/JSON error raised).
A falsy (`None` or empty) `loc` field returns the all-`None` failure tuple;
a `loc` that does not split into two parsable floats raises inside the
`try`, which the handler also turns into the failure value.  `city`,
`region` and `country` default to `"Unknown"`. -/
def get_external_ip_location (ipResp : Option String)
    (geoResp : Option IpinfoJson) :
    Option (String × (Rat × Rat) × String × String × String) :=
  match ipResp, geoResp with
  | none, _ => none
  | some _, none => none
  | some external_ip, some data =>
    match data.loc with
    | none => none
    | some locStr =>
      if locStr = "" then none
      else
        match locStr.splitOn "," with
        | l0 :: l1 :: _ =>
          match parseFloatPy l0, parseFloatPy l1 with
          | some lat, some lon =>
            some (external_ip, (lat, lon), data.city.getD "Unknown",
              data.region.getD "Unknown", data.country.getD "Unknown")
          | _, _ => none
        | _ => none

/-- The poll-consumption step of `draw` (`mapIP.py` lines 284-289): replace
the Location (and request a redraw) only when the poll produced a truthy IP
that differs from the current one; otherwise retain the previous Location.
The returned `Bool` is `ip_changed`. -/
def pollStep (cur : Location)
    (res : Option (String × (Rat × Rat) × String × String × String)) :
    Location × Bool :=
  match res with
  | none => (cur, false)
  | some (nip, g, c, r, co) =>
    if nip ≠ "" ∧ nip ≠ cur.ip then (⟨nip, g, c, r, co⟩, true)
    else (cur, false)

/-- C7: a poll failure is non-fatal: when the address lookup fails, the
geolocation lookup fails, or the response lacks the `loc` field, the poller
returns the failure value `none`, and the consumption step retains the
previously known Location unchanged with no forced redraw, so the loop
simply proceeds to the next tick on its existing cadence. -/
theorem c7_poll_failure_retains_location (cur : Location)
    (ipResp : Option String) (d : IpinfoJson) (hd : d.loc = none) :
    get_external_ip_location ipResp (some d) = none ∧
      get_external_ip_location ipResp none = none ∧
      (∀ geoResp, get_external_ip_location none geoResp = none) ∧
      pollStep cur (get_external_ip_location ipResp (some d)) = (cur, false) ∧
      pollStep cur (get_external_ip_location ipResp none) = (cur, false) := by
  have h1 : get_external_ip_location ipResp (some d) = none := by
    cases ipResp <;> simp [get_external_ip_location, hd]
  have h2 : get_external_ip_location ipResp none = none := by
    cases ipResp <;> rfl
  refine ⟨h1, h2, fun geoResp => rfl, ?_, ?_⟩
  · rw [h1]; rfl
  · rw [h2]; rfl

/-- C7 witness: a concrete response without `loc` leaves a concrete Location
untouched. -/
theorem c7_poll_failure_witness :
    get_external_ip_location (some "1.2.3.4")
        (some ⟨none, some "X", none, none⟩) = none ∧
      pollStep ⟨"9.9.9.9", (40, -75), "X", "Y", "Z"⟩
        (get_external_ip_location (some "1.2.3.4")
          (some ⟨none, some "X", none, none⟩)) =
        (⟨"9.9.9.9", (40, -75), "X", "Y", "Z"⟩, false) :=
  ⟨(c7_poll_failure_retains_location ⟨"9.9.9.9", (40, -75), "X", "Y", "Z"⟩
      (some "1.2.3.4") ⟨none, some "X", none, none⟩ rfl).1,
   (c7_poll_failure_retains_location ⟨"9.9.9.9", (40, -75), "X", "Y", "Z"⟩
      (some "1.2.3.4") ⟨none, some "X", none, none⟩ rfl).2.2.2.1⟩

/-- The `__main__` refresh-rate handling of `mapIP.py` (lines 414-421):
`rr = 10.0`; if the flag was supplied (a truthy, i.e. non-empty, string),
exit with code 1 when `float(args.refreshrate) == 0` (or when `float`
raises, via the enclosing `except Exception` → `sys.exit(1)`), otherwise
run with the parsed value. -/
def mainStartupRefreshRate (arg : Option String) : Except Nat Rat :=
  match arg with
  | none => .ok 10
  | some s =>
    if s = "" then .ok 10
    else
      match parseFloatPy s with
      | none => .error 1
      | some r => if r = 0 then .error 1 else .ok r

/-- C9 (counterexample): a supplied refresh rate of `-5` is not strictly
positive, yet the startup check accepts it (only the exact value 0 is
rejected), so the program enters the render loop instead of exiting with
code 1. -/
theorem c9_negative_refresh_rate_accepted_cex :
    mainStartupRefreshRate (some "-5") = .ok (-5) ∧
      mainStartupRefreshRate (some "-5") ≠ .error 1 := by
  have h : mainStartupRefreshRate (some "-5") = .ok (-5) := rfl
  exact ⟨h, by rw [h]; intro hc; exact Except.noConfusion hc⟩

/-- C9 (amended): the startup check treats exactly the refresh-rate value 0
as a fatal error exiting with code 1; every other parsable supplied value —
including negative ones — is accepted and the program proceeds into the
render loop with it. -/
theorem c9_refresh_rate_zero_only_fatal (s : String) (r : Rat)
    (hs : parseFloatPy s = some r) :
    (r = 0 → mainStartupRefreshRate (some s) = .error 1) ∧
      (r ≠ 0 → mainStartupRefreshRate (some s) = .ok r) := by
  have hsne : s ≠ "" := by
    intro h0
    rw [h0] at hs
    exact absurd hs (by intro hc; cases hc)
  simp only [mainStartupRefreshRate]
  rw [if_neg hsne, hs]
  dsimp only
  constructor
  · intro h0
    rw [if_pos h0]
  · intro hne
    rw [if_neg hne]

/-- C9 witness: the zero value exits with code 1, the value `2` is
accepted. -/
theorem c9_refresh_rate_witness :
    mainStartupRefreshRate (some "0") = .error 1 ∧
      mainStartupRefreshRate (some "2") = .ok 2 :=
  ⟨(c9_refresh_rate_zero_only_fatal "0" 0 (by decide)).1 rfl,
   (c9_refresh_rate_zero_only_fatal "2" 2 (by decide)).2 (by norm_num)⟩

/-- `mapIP.py` `calculate_effective_width`: the terminal width minus the
4 columns of Rich panel border. -/
def calculate_effective_width (terminal_width : Int) : Int :=
  terminal_width - 4

/-- `mapIP.py` `generate_display_content`: the header line followed by every
map row, each terminated by a newline — the Frame text used for
change-detection. -/
def generate_display_content (ip city region country : String)
    (worldMapTemp : List (List Char)) (ip_check_interval : Nat) : String :=
  worldMapTemp.foldl (fun content row => content ++ String.mk row ++ "\n")
    ("IP: " ++ ip ++ ", Location: " ++ city ++ ", " ++ region ++ ", " ++
      country ++ ", Updates every: " ++ toString ip_check_interval ++ "\n")

/-- The mutable state of `draw`'s render loop (`mapIP.py` lines 260-345):
the module globals plus the loop-local flags and the marked working copy. -/
structure DrawState where
  loc : Location
  last_ip_check : Rat
  update_display : Bool
  map_needs_update : Bool
  curSize : Int × Int
  worldMap : List (List Char)
  worldMapTemp : List (List Char)
  last_display_content : String

/-- The environment one loop tick observes: the clock, the sampled terminal
size `(rows, columns)`, the poll outcome (consulted only when the poll timer
has elapsed), and the outcome of the map rebuild (consulted only on a
resize; it stands for the file read plus `covertImageToAscii`). -/
structure TickInput where
  now : Rat
  termSize : Int × Int
  pollResult : Option (String × (Rat × Rat) × String × String × String)
  rebuildResult : Except PyErr (List (List Char))

/-- How one tick ends: normally (with or without a flushed frame), in the
`except Exception` log-sleep(5)-continue path, or — for an uncaught
`SystemExit` — by terminating the process. -/
inductive TickResult where
  | normal (st : DrawState) (flushed : Bool)
  | retryBackoff (st : DrawState)
  | exitProcess (code : Nat)

/-- Lines 330-345 of `mapIP.py`: when the map or the location changed,
recompute the working copy: copy the base grid, project the location,
overlay the marker if in bounds, and re-normalize every row. -/
def markerRefresh (eff : Int) (ip_changed : Bool) (st : DrawState) :
    DrawState :=
  if st.map_needs_update || ip_changed then
    let worldMapTemp := st.worldMap
    let map_height := worldMapTemp.length
    let map_width := (worldMapTemp.headD []).length
    let pos := geo_to_ascii st.loc.geo (map_height : Int) (map_width : Int)
    let wmt1 :=
      if 0 ≤ pos.1 ∧ pos.1 < (map_height : Int) ∧ 0 ≤ pos.2 ∧
          pos.2 < (map_width : Int) then
        overlayMarker worldMapTemp pos.1.toNat pos.2.toNat
      else worldMapTemp
    { st with
      worldMapTemp := wmt1.map (fun row => ensure_line_length row eff.toNat),
      map_needs_update := false }
  else st

/-- Lines 329-398 of `mapIP.py`: the display-update block.  Skipped entirely
unless `update_display` is set; otherwise refresh the working copy if
needed, compose the Frame text, and flush (returning `true`) exactly when
the text changed or `update_display` forces it, clearing `update_display`. -/
def renderPhase (itv : Nat) (eff : Int) (ip_changed : Bool) (st : DrawState) :
    DrawState × Bool :=
  if st.update_display = true then
    let st2 := markerRefresh eff ip_changed st
    let current_content := generate_display_content st2.loc.ip st2.loc.city
      st2.loc.region st2.loc.country st2.worldMapTemp itv
    if current_content ≠ st2.last_display_content ∨
        st2.update_display = true then
      ({ st2 with
          last_display_content := current_content,
          update_display := false }, true)
    else (st2, false)
  else (st, false)

/-- One iteration of `draw`'s `while True` body (`mapIP.py` lines 277-400):
poll consumption when the poll timer elapsed, resize detection with map
rebuild (whose `SystemExit` is caught by no handler, and whose `Exception`s
take the log-sleep-continue path), then the display-update block. -/
def drawTick (itv : Nat) (inp : TickInput) (st : DrawState) : TickResult :=
  let pollPhase :=
    if inp.now - st.last_ip_check > (itv : Rat) then
      let pr := pollStep st.loc inp.pollResult
      ({ st with
          loc := pr.1,
          update_display := st.update_display || pr.2,
          last_ip_check := inp.now }, pr.2)
    else (st, false)
  let st1 := pollPhase.1
  let ip_changed := pollPhase.2
  let eff := calculate_effective_width inp.termSize.2
  if st1.curSize.1 ≠ inp.termSize.1 ∨ st1.curSize.2 ≠ inp.termSize.2 then
    match inp.rebuildResult with
    | .error (.systemExit c) => .exitProcess c
    | .error (.exc _) =>
      .retryBackoff { st1 with curSize := (inp.termSize.1, inp.termSize.2) }
    | .ok m =>
      let st2 := { st1 with
        curSize := (inp.termSize.1, inp.termSize.2),
        worldMap := m.map (fun row => ensure_line_length row eff.toNat),
        update_display := true,
        map_needs_update := true }
      let r := renderPhase itv eff ip_changed st2
      .normal r.1 r.2
  else
    let r := renderPhase itv eff ip_changed st1
    .normal r.1 r.2

/-- Run a sequence of ticks, counting how many flushed a frame to the
terminal. -/
def runTicks (itv : Nat) : List TickInput → DrawState → DrawState × Nat
  | [], st => (st, 0)
  | inp :: rest, st =>
    match drawTick itv inp st with
    | .normal st' flushed =>
      let r := runTicks itv rest st'
      (r.1, (if flushed then 1 else 0) + r.2)
    | .retryBackoff st' => runTicks itv rest st'
    | .exitProcess _ => (st, 0)

theorem markerRefresh_update_display (e : Int) (b : Bool) (st : DrawState) :
    (markerRefresh e b st).update_display = st.update_display := by
  unfold markerRefresh
  split <;> rfl

theorem markerRefresh_curSize (e : Int) (b : Bool) (st : DrawState) :
    (markerRefresh e b st).curSize = st.curSize := by
  unfold markerRefresh
  split <;> rfl

theorem markerRefresh_last_ip_check (e : Int) (b : Bool) (st : DrawState) :
    (markerRefresh e b st).last_ip_check = st.last_ip_check := by
  unfold markerRefresh
  split <;> rfl

theorem renderPhase_flush (itv : Nat) (e : Int) (b : Bool) (st : DrawState)
    (h : st.update_display = true) :
    renderPhase itv e b st =
      ({ markerRefresh e b st with
          last_display_content := generate_display_content
            (markerRefresh e b st).loc.ip (markerRefresh e b st).loc.city
            (markerRefresh e b st).loc.region (markerRefresh e b st).loc.country
            (markerRefresh e b st).worldMapTemp itv,
          update_display := false }, true) := by
  unfold renderPhase
  rw [if_pos h]
  dsimp only
  rw [if_pos (Or.inr (by rw [markerRefresh_update_display]; exact h))]

theorem renderPhase_silent (itv : Nat) (e : Int) (b : Bool) (st : DrawState)
    (h : st.update_display = false) :
    renderPhase itv e b st = (st, false) := by
  unfold renderPhase
  rw [if_neg (by rw [h]; exact Bool.false_ne_true)]

theorem drawTick_stable_silent (itv : Nat) (inp : TickInput) (st : DrawState)
    (h1 : ¬ inp.now - st.last_ip_check > (itv : Rat))
    (h2 : inp.termSize = st.curSize)
    (hud : st.update_display = false) :
    drawTick itv inp st = .normal st false := by
  unfold drawTick
  rw [if_neg h1]
  dsimp only
  rw [if_neg (by simp [h2])]
  rw [renderPhase_silent _ _ _ _ hud]

theorem drawTick_stable_flush (itv : Nat) (inp : TickInput) (st : DrawState)
    (h1 : ¬ inp.now - st.last_ip_check > (itv : Rat))
    (h2 : inp.termSize = st.curSize)
    (hud : st.update_display = true) :
    ∃ st', drawTick itv inp st = .normal st' true ∧
      st'.update_display = false ∧ st'.curSize = st.curSize ∧
      st'.last_ip_check = st.last_ip_check := by
  unfold drawTick
  rw [if_neg h1]
  dsimp only
  rw [if_neg (by simp [h2])]
  rw [renderPhase_flush _ _ _ _ hud]
  refine ⟨_, rfl, rfl, ?_, ?_⟩
  · exact markerRefresh_curSize _ _ _
  · exact markerRefresh_last_ip_check _ _ _

theorem runTicks_silent (itv : Nat) (inps : List TickInput) (st : DrawState)
    (hud : st.update_display = false)
    (hstable : ∀ inp ∈ inps, inp.termSize = st.curSize ∧
      inp.now - st.last_ip_check ≤ (itv : Rat)) :
    runTicks itv inps st = (st, 0) := by
  induction inps with
  | nil => rfl
  | cons inp rest ih =>
    obtain ⟨ht, hn⟩ := hstable inp (List.mem_cons_self _ _)
    have hd := drawTick_stable_silent itv inp st (not_lt.mpr hn) ht hud
    unfold runTicks
    rw [hd]
    dsimp only
    rw [ih (fun i hi => hstable i (List.mem_cons_of_mem _ hi))]
    simp

/-- C8: over any run of consecutive ticks in which the terminal size stays
equal to the loop's current size and the poll timer never elapses (so the
location cannot change), a loop entered with the forced-redraw flag set
flushes exactly one Frame: the first tick flushes and clears
`update_display`, and every subsequent redundant tick performs no terminal
write. -/
theorem c8_redundant_ticks_flush_once (itv : Nat) (inps : List TickInput)
    (st : DrawState) (hne : inps ≠ [])
    (hstable : ∀ inp ∈ inps, inp.termSize = st.curSize ∧
      inp.now - st.last_ip_check ≤ (itv : Rat))
    (hud : st.update_display = true) :
    (runTicks itv inps st).2 = 1 := by
  cases inps with
  | nil => exact absurd rfl hne
  | cons inp rest =>
    obtain ⟨ht, hn⟩ := hstable inp (List.mem_cons_self _ _)
    obtain ⟨st', hd, hud', hcs, hlc⟩ :=
      drawTick_stable_flush itv inp st (not_lt.mpr hn) ht hud
    unfold runTicks
    rw [hd]
    dsimp only
    rw [runTicks_silent itv rest st' hud' (fun i hi => by
      obtain ⟨a, b⟩ := hstable i (List.mem_cons_of_mem _ hi)
      exact ⟨by rw [hcs]; exact a, by rw [hlc]; exact b⟩)]
    simp

/-- C8 witness: three ticks at a fixed 24×80 terminal with the poll timer
not yet elapsed flush exactly one frame. -/
theorem c8_redundant_ticks_witness :
    (runTicks 60
      [⟨1, (24, 80), none, .ok []⟩, ⟨2, (24, 80), none, .ok []⟩,
       ⟨3, (24, 80), none, .ok []⟩]
      ⟨⟨"1.2.3.4", (40, -75), "c", "r", "co"⟩, 0, true, true, (24, 80),
        [['a']], [], ""⟩).2 = 1 :=
  c8_redundant_ticks_flush_once 60 _ _ (by simp)
    (by
      intro i hi
      fin_cases hi <;> exact ⟨rfl, by norm_num⟩)
    rfl
